import Mathlib

/-
Verification of the country-classification pipeline of kkeriee/configs
(src/bot.py) against its natural-language specification.

The Python source is shallowly embedded: pure helpers become Lean
functions, the module-level caches become an explicit LimitedCache value
threaded through the operations, the asynchronous DNS / geolocation calls
become environment records describing the outcomes of the external
collaborators (the dns resolver, socket.gethostbyname_ex and the maxminddb
reader are libraries outside this repository), and a Python exception that
escapes a function is an explicit Except.error value.  Regular expressions
from the source are embedded via a small backtracking engine whose match
priority (leftmost start, greedy repetition, first alternative first)
mirrors the Python re module; each embedded pattern carries the source
regex in a comment.
-/

/-! Basic string utilities mirroring Python primitives. -/

/-- ASCII lower-casing of one character, mirroring str.lower for the ASCII
range (non-ASCII case folding is not modelled; every concrete input used in
the theorems below is ASCII-cased). -/
def asciiLowerChar (c : Char) : Char :=
  if 'A' ≤ c ∧ c ≤ 'Z' then Char.ofNat (c.toNat + 32) else c

/-- ASCII lower-casing of a string, mirroring str.lower on ASCII data. -/
def asciiLower (s : String) : String :=
  String.mk (s.toList.map asciiLowerChar)

/-- Substring containment, mirroring the Python expression sub in s. -/
def containsSubstr (s sub : String) : Bool :=
  s.toList.tails.any (fun t => sub.toList.isPrefixOf t)

/-- Lookup in an association list by key, mirroring dict.get. -/
def lcLookup {α : Type} (l : List (String × α)) (k : String) : Option α :=
  (l.find? (fun p => p.1 == k)).map (fun p => p.2)

/-- Removal of a key from an association list, mirroring dict.pop. -/
def eraseKey {α : Type} (l : List (String × α)) (k : String) : List (String × α) :=
  l.filter (fun p => !(p.1 == k))

/-- Splitting worker over character lists; the fuel argument (one more than
the input length) makes the recursion structural.  For a non-empty
separator this computes exactly str.split: the text up to each
non-overlapping occurrence of the separator, scanned left to right. -/
def sSplitOnAux (sep : List Char) : Nat → List Char → List Char → List String
  | 0, cs, acc => [String.mk (acc.reverse ++ cs)]
  | _ + 1, [], acc => [String.mk acc.reverse]
  | f + 1, c :: rest, acc =>
    if sep.isPrefixOf (c :: rest) then
      String.mk acc.reverse :: sSplitOnAux sep f ((c :: rest).drop sep.length) []
    else sSplitOnAux sep f rest (c :: acc)

/-- Splitting a string at a non-empty separator, mirroring str.split (and
agreeing with the core splitOn, re-stated structurally so that it computes
inside the kernel). -/
def sSplitOn (sep s : String) : List String :=
  sSplitOnAux sep.toList (s.toList.length + 1) s.toList []

/-- Suffix test stated structurally so that it computes inside the
kernel. -/
def sEndsWith (s suffix : String) : Bool :=
  suffix.toList.reverse.isPrefixOf s.toList.reverse

/-! A small backtracking regex engine.  Only the constructs used by the
patterns in src/bot.py are supported: single-character classes, sequencing,
alternation, greedy star / plus / option, bounded greedy repetition, the
word-boundary assertion and one capture group.  The list of candidate match
states is ordered by the backtracking priority of the Python re module, so
taking the head of the list yields exactly the match re.search returns. -/

/-- Word characters as used by the \w class and \b assertion of the Python
re module.  ASCII word characters are exact; every character above the
ASCII range is treated as a word character (all non-ASCII characters
appearing in the source patterns are CJK, Cyrillic or Arabic letters, which
are Python word characters). -/
def isWordChar (c : Char) : Bool :=
  c.isAlphanum || c == '_' || decide (c.toNat ≥ 128)

/-- Whitespace characters of the \s class (ASCII subset of the Python
definition). -/
def isSpaceChar (c : Char) : Bool :=
  c == ' ' || c == '\t' || c == '\n' || c == '\r' ||
  c == Char.ofNat 11 || c == Char.ofNat 12

/-- Regex abstract syntax for the pattern subset used in src/bot.py. -/
inductive Rx where
  | eps : Rx
  | wb : Rx
  | cls (p : Char → Bool) : Rx
  | grp (a : Rx) : Rx
  | seq (a b : Rx) : Rx
  | alt (a b : Rx) : Rx
  | star (a : Rx) : Rx
  | rep (a : Rx) (lo hi : Nat) : Rx
  | opt (a : Rx) : Rx

/-- Syntactic size of a pattern, used to compute a sufficient fuel bound. -/
def rxSize : Rx → Nat
  | .eps => 1
  | .wb => 1
  | .cls _ => 1
  | .grp a => rxSize a + 1
  | .seq a b => rxSize a + rxSize b + 1
  | .alt a b => rxSize a + rxSize b + 1
  | .star a => rxSize a + 1
  | .rep a lo hi => rxSize a + lo + hi + 1
  | .opt a => rxSize a + 1

/-- Truth of the word-boundary assertion at position i of the input. -/
def boundaryAt (cs : List Char) (i : Nat) : Bool :=
  let wAt : Nat → Bool := fun j =>
    match cs.get? j with
    | some c => isWordChar c
    | none => false
  (match i with
   | 0 => false
   | j + 1 => wAt j) != wAt i

/-- Backtracking matcher.  Given fuel, a pattern, a position and the current
group-1 span, it returns every reachable (position, group-1 span) state, in
the priority order of the Python re module (greedy first, first alternative
first).  Every recursive call decreases the fuel; reSearch below supplies
fuel ample for the patterns and inputs of this development. -/
def mrunF (cs : List Char) :
    Nat → Rx → Nat → Option (Nat × Nat) → List (Nat × Option (Nat × Nat))
  | 0, _, _, _ => []
  | f + 1, r, i, g =>
    match r with
    | .eps => [(i, g)]
    | .wb => if boundaryAt cs i then [(i, g)] else []
    | .cls p =>
      match cs.get? i with
      | some c => if p c then [(i + 1, g)] else []
      | none => []
    | .grp a => (mrunF cs f a i g).map (fun s => (s.1, some (i, s.1)))
    | .seq a b => (mrunF cs f a i g).flatMap (fun s => mrunF cs f b s.1 s.2)
    | .alt a b => mrunF cs f a i g ++ mrunF cs f b i g
    | .opt a => mrunF cs f a i g ++ [(i, g)]
    | .star a =>
      ((mrunF cs f a i g).flatMap (fun s =>
        if i < s.1 then mrunF cs f (.star a) s.1 s.2 else [])) ++ [(i, g)]
    | .rep a lo hi =>
      match lo, hi with
      | 0, 0 => [(i, g)]
      | 0, h + 1 =>
        ((mrunF cs f a i g).flatMap (fun s => mrunF cs f (.rep a 0 h) s.1 s.2)) ++ [(i, g)]
      | _ + 1, 0 => []
      | l + 1, h + 1 =>
        (mrunF cs f a i g).flatMap (fun s => mrunF cs f (.rep a l h) s.1 s.2)

/-- Fuel that is sufficient for matching pattern r against cs from any
start position: the matcher recursion descends the pattern structure or
consumes an input character at every level. -/
def rxFuel (cs : List Char) (r : Rx) : Nat :=
  (cs.length + 2) * (rxSize r + 2)

/-- Characters i (inclusive) to j (exclusive) of the input, as a string. -/
def strSlice (cs : List Char) (i j : Nat) : String :=
  String.mk ((cs.drop i).take (j - i))

/-- Attempt of re.search at successive start positions i, i+1, ...; rem
bounds the number of further positions to try.  Returns the start position,
end position and group-1 span of the first (leftmost) match. -/
def searchFromAux (cs : List Char) (r : Rx) :
    Nat → Nat → Option (Nat × Nat × Option (Nat × Nat))
  | i, rem =>
    match (mrunF cs (rxFuel cs r) r i none).head? with
    | some s => some (i, s.1, s.2)
    | none =>
      match rem with
      | 0 => none
      | rem' + 1 => searchFromAux cs r (i + 1) rem'

/-- Embedding of re.search: the matched text (group 0) and the text of
capture group 1, if any, of the leftmost match of r in s. -/
def reSearch (r : Rx) (s : String) : Option (String × Option String) :=
  let cs := s.toList
  (searchFromAux cs r 0 cs.length).map (fun t =>
    (strSlice cs t.1 t.2.1, t.2.2.map (fun ab => strSlice cs ab.1 ab.2)))

/-! Pattern constructors. -/

/-- Literal character (case-sensitive). -/
def lit (c : Char) : Rx := .cls (fun x => x == c)

/-- Literal character under re.IGNORECASE (the source only uses the flag on
ASCII patterns, so ASCII case-folding is exact here). -/
def litCI (c : Char) : Rx := .cls (fun x => asciiLowerChar x == c)

/-- Sequencing of a list of patterns. -/
def seqList : List Rx → Rx
  | [] => .eps
  | [r] => r
  | r :: rs => .seq r (seqList rs)

/-- Literal string pattern (case-sensitive). -/
def litStr (s : String) : Rx := seqList (s.toList.map lit)

/-- Literal string pattern under re.IGNORECASE. -/
def litStrCI (s : String) : Rx := seqList (s.toList.map litCI)

/-- Greedy one-or-more repetition, x+ as x followed by x*. -/
def rplus (a : Rx) : Rx := .seq a (.star a)

/-! Concrete patterns from src/bot.py.  Character classes: the source only
applies re.IGNORECASE to ASCII patterns, where litCI and the folded classes
are exact. -/

/-- Class [a-z0-9] under re.IGNORECASE. -/
def alnumC (c : Char) : Bool := c.isAlpha || c.isDigit

/-- Class [a-z] under re.IGNORECASE. -/
def alphaC (c : Char) : Bool := c.isAlpha

/-- Class [a-z0-9.-] under re.IGNORECASE. -/
def adotdashC (c : Char) : Bool := c.isAlpha || c.isDigit || c == '.' || c == '-'

/-- Class of \w together with dot and dash, as in [\w\.-] and [\w.-]. -/
def wdotdashC (c : Char) : Bool := isWordChar c || c == '.' || c == '-'

/-- Source regex (general host scan, first pattern, line 1448):
an IPv4 literal delimited by word boundaries, with each octet one to three
digits. -/
def rxIpv4General : Rx :=
  seqList [.wb,
    .rep (seqList [.rep (.cls Char.isDigit) 1 3, lit '.']) 3 3,
    .rep (.cls Char.isDigit) 1 3, .wb]

/-- Source regex (general host scan, second pattern, line 1449): a dotted
DNS name, one or more dash-separated alphanumeric labels each ending in a
dot, followed by a two-or-more-letter TLD; capture groups of the source are
not modelled since the caller reads group 0. -/
def rxDomainGeneral : Rx :=
  seqList [
    rplus (seqList [rplus (.cls alnumC),
      .star (.seq (lit '-') (rplus (.cls alnumC))), lit '.']),
    .cls alphaC, rplus (.cls alphaC)]

/-- Source regex (general host scan, third pattern, line 1450): an at sign
followed by one or more word, dot or dash characters and an optional
colon. -/
def rxAtHost : Rx :=
  seqList [lit '@', .grp (rplus (.cls wdotdashC)), .opt (lit ':')]

/-- Source regex (general host scan, fourth pattern, line 1451): the word
host, optional spaces, a colon or equals sign, optional spaces, then a
double-quoted value. -/
def rxHostJson : Rx :=
  seqList [litStrCI "host", .star (.cls isSpaceChar),
    .cls (fun c => c == ':' || c == '='), .star (.cls isSpaceChar),
    lit '"', .grp (rplus (.cls (fun c => !(c == '"')))), lit '"']

/-- Source regex (general host scan, fifth pattern, line 1452): the word
address, an equals sign with optional spaces, then word, dot or dash
characters. -/
def rxAddressEq : Rx :=
  seqList [litStrCI "address", .star (.cls isSpaceChar), lit '=',
    .star (.cls isSpaceChar), .grp (rplus (.cls wdotdashC))]

/-- Source regex (WireGuard branch, line 1429): the word Endpoint, an
equals sign with optional spaces, a host token, then a colon.  No
IGNORECASE flag in the source, so the literals are case-sensitive. -/
def rxWgEndpoint : Rx :=
  seqList [litStr "Endpoint", .star (.cls isSpaceChar), lit '=',
    .star (.cls isSpaceChar), .grp (rplus (.cls wdotdashC)), lit ':']

/-- Source regex (OpenVPN branch, line 1438): the word remote, spaces, a
host token, spaces, then digits.  Case-sensitive in the source. -/
def rxOvpnRemote : Rx :=
  seqList [litStr "remote", rplus (.cls isSpaceChar),
    .grp (rplus (.cls wdotdashC)), rplus (.cls isSpaceChar),
    rplus (.cls Char.isDigit)]

/-- Source regex (VMess alternative extraction, line 1371).  The source
raw string doubles the backslashes, so the pattern literally requires a
backslash character before each run of the letter s: quote add quote,
backslash, s repeated, colon, backslash, s repeated, quote, then the
captured value. -/
def rxVmessAdd : Rx :=
  seqList [lit '"', litStr "add", lit '"', lit '\\', .star (lit 's'),
    lit ':', lit '\\', .star (lit 's'), lit '"',
    .grp (rplus (.cls (fun c => !(c == '"'))))]

/-- Source regex (Shadowsocks alternative extraction, line 1396): an at
sign, captured host characters, then a colon.  Unreachable in the model
because the embedded try-body of the ss branch is total, but kept for
completeness. -/
def rxSsAt : Rx :=
  seqList [lit '@', .grp (rplus (.cls adotdashC)), lit ':']

/-- Source regex (extract_domain, line 1466): an optional http or https
scheme, then a captured dotted name ending in a TLD of two or more
letters. -/
def rxUrlDomain : Rx :=
  .seq (.opt (seqList [litStrCI "http", .opt (litCI 's'), lit ':',
    lit '/', lit '/']))
    (.grp (seqList [rplus (.cls adotdashC), lit '.',
      .cls alphaC, rplus (.cls alphaC)]))

/-- Source regex (extract_domain, line 1470): a word-boundary-delimited
dotted DNS name, as in rxDomainGeneral. -/
def rxDomainWb : Rx :=
  seqList [.wb,
    rplus (seqList [rplus (.cls alnumC),
      .star (.seq (lit '-') (rplus (.cls alnumC))), lit '.']),
    .cls alphaC, rplus (.cls alphaC), .wb]

/-! The lexical classifier (detect_by_keywords, is_config_relevant). -/

/-- Compiler for the keyword patterns of detect_by_keywords.  Those source
patterns use only literal characters and the escapes backslash-b (word
boundary) and backslash-dot (literal dot), so the compilation is a direct
token walk. -/
def mkPatChars : List Char → List Rx
  | [] => []
  | '\\' :: 'b' :: rest => Rx.wb :: mkPatChars rest
  | '\\' :: c :: rest => lit c :: mkPatChars rest
  | c :: rest => lit c :: mkPatChars rest

/-- Pattern compiler entry point. -/
def mkPat (s : String) : Rx := seqList (mkPatChars s.toList)

/-- The per-country keyword and pattern table of detect_by_keywords
(src/bot.py lines 1265-1341), transcribed entry for entry, including the
mixed-script typos of the source. -/
def keywordTable : List (String × List String) := [
  ("japan", ["jp\\b", "japan", "tokyo", "\\.jp\\b", "日本", "東京"]),
  ("united states", ["us\\b", "usa\\b", "united states", "new york", "\\.us\\b", "美国", "紐約"]),
  ("russia", ["ru\\b", "russia", "moscow", "\\.ru\\b", "россия", "俄国", "москва"]),
  ("germany", ["de\\b", "germany", "frankfurt", "\\.de\\b", "германия", "德国", "フランクフルト"]),
  ("united kingdom", ["uk\\b", "united kingdom", "london", "\\.uk\\b", "英国", "倫敦", "gb"]),
  ("france", ["france", "paris", "\\.fr\\b", "法国", "巴黎"]),
  ("brazil", ["brazil", "sao paulo", "\\.br\\b", "巴西", "聖保羅"]),
  ("singapore", ["singapore", "\\.sg\\b", "新加坡", "星加坡"]),
  ("south korea", ["korea", "seoul", "\\.kr\\b", "韩国", "首爾", "korean"]),
  ("turkey", ["turkey", "istanbul", "\\.tr\\b", "土耳其", "伊斯坦布爾"]),
  ("taiwan", ["taiwan", "taipei", "\\.tw\\b", "台湾", "台北"]),
  ("switzerland", ["switzerland", "zurich", "\\.ch\\b", "瑞士", "蘇黎世"]),
  ("india", ["india", "mumbai", "\\.in\\b", "印度", "孟買"]),
  ("canada", ["canada", "toronto", "\\.ca\\b", "加拿大", "多倫多"]),
  ("australia", ["australia", "sydney", "\\.au\\b", "澳洲", "悉尼"]),
  ("china", ["china", "beijing", "\\.cn\\b", "中国", "北京"]),
  ("italy", ["italy", "rome", "\\.it\\b", "意大利", "羅馬"]),
  ("spain", ["spain", "madrid", "\\.es\\b", "西班牙", "马德里"]),
  ("portugal", ["portugal", "lisbon", "\\.pt\\b", "葡萄牙", "里斯本"]),
  ("norway", ["norway", "oslo", "\\.no\\b", "挪威", "奥斯陆"]),
  ("finland", ["finland", "helsinki", "\\.fi\\b", "芬兰", "赫尔辛基"]),
  ("denmark", ["denmark", "copenhagen", "\\.dk\\b", "丹麦", "哥本哈根"]),
  ("poland", ["poland", "warsaw", "\\.pl\\b", "波兰", "华沙"]),
  ("ukraine", ["ukraine", "kyiv", "\\.ua\\b", "乌克兰", "基辅"]),
  ("belarus", ["belarus", "minsk", "\\.by\\b", "白俄罗斯", "明斯克"]),
  ("indonesia", ["indonesia", "jakarta", "\\.id\\b", "印度尼西亚", "雅加达"]),
  ("malaysia", ["malaysia", "kuala lumpur", "\\.my\\b", "马来西亚", "吉隆坡"]),
  ("philippines", ["philippines", "manila", "\\.ph\\b", "菲律宾", "马尼ла"]),
  ("vietnam", ["vietnam", "hanoi", "\\.vn\\b", "越南", "河内"]),
  ("thailand", ["thailand", "bangkok", "\\.th\\b", "泰国", "曼谷"]),
  ("czech republic", ["czech", "prague", "\\.cz\\b", "捷克", "布拉格"]),
  ("romania", ["romania", "bucharest", "\\.ro\\b", "罗马尼亚", "布加勒斯特"]),
  ("hungary", ["hungary", "budapest", "\\.hu\\b", "匈牙利", "布达佩с"]),
  ("greece", ["greece", "athens", "\\.gr\\b", "希腊", "雅典"]),
  ("bulgaria", ["bulgaria", "sofia", "\\.bg\\b", "保加利亚", "索非а"]),
  ("egypt", ["egypt", "cairo", "\\.eg\\b", "埃及", "开罗"]),
  ("nigeria", ["nigeria", "abuja", "\\.ng\\b", "尼日利亚", "阿布贾"]),
  ("kenya", ["kenya", "nairobi", "\\.ke\\b", "肯尼亚", "内罗毕"]),
  ("colombia", ["colombia", "bogota", "\\.co\\b", "哥伦比亚", "波哥大"]),
  ("peru", ["peru", "lima", "\\.pe\\b", "秘鲁", "利马"]),
  ("chile", ["chile", "santiago", "\\.cl\\b", "智利", "圣地亚哥"]),
  ("venezuela", ["venezuela", "caracas", "\\.ve\\b", "委内瑞拉", "加拉加斯"]),
  ("austria", ["austria", "vienna", "\\.at\\b", "奥地利", "维也纳"]),
  ("belgium", ["belgium", "brussels", "\\.be\\b", "比利时", "布鲁塞尔"]),
  ("ireland", ["ireland", "dublin", "\\.ie\\b", "爱尔兰", "都柏林"]),
  ("algeria", ["algeria", "algiers", "\\.dz\\b", "الجزائر", "阿尔及利亚"]),
  ("angola", ["angola", "luanda", "\\.ao\\b", "安哥拉"]),
  ("bangladesh", ["bangladesh", "dhaka", "\\.bd\\b", "孟加拉"]),
  ("cambodia", ["cambodia", "phnom penh", "\\.kh\\b", "柬埔寨"]),
  ("costa rica", ["costa rica", "san jose", "\\.cr\\b", "哥斯达黎加"]),
  ("croatia", ["croatia", "zagreb", "\\.hr\\b", "克罗地亚"]),
  ("cuba", ["cuba", "havana", "\\.cu\\b", "古巴"]),
  ("estonia", ["estonia", "tallinn", "\\.ee\\b", "爱沙尼亚"]),
  ("georgia", ["georgia", "tbilisi", "\\.ge\\b", "格鲁吉亚"]),
  ("ghana", ["ghana", "accra", "\\.gh\\b", "加纳"]),
  ("iran", ["iran", "tehran", "\\.ir\\b", "伊朗"]),
  ("jordan", ["jordan", "ammam", "\\.jo\\b", "约旦"]),
  ("kazakhstan", ["kazakhstan", "astana", "\\.kz\\b", "哈萨克斯坦"]),
  ("kuwait", ["kuwait", "kuwait city", "\\.kw\\b", "科威特"]),
  ("lebanon", ["lebanon", "beirut", "\\.lb\\b", "黎巴嫩"]),
  ("libya", ["libya", "tripoli", "\\.ly\\b", "利比亚"]),
  ("morocco", ["morocco", "rabat", "\\.ma\\b", "摩洛哥"]),
  ("nepal", ["nepal", "kathmandu", "\\.np\\b", "尼泊尔"]),
  ("oman", ["oman", "muscat", "\\.om\\b", "阿曼"]),
  ("pakistan", ["pakistan", "islamabad", "\\.pk\\b", "巴基斯坦"]),
  ("qatar", ["qatar", "doha", "\\.qa\\b", "卡塔尔"]),
  ("serbia", ["serbia", "belgrade", "\\.rs\\b", "塞尔维я"]),
  ("slovakia", ["slovakia", "bratislava", "\\.sk\\b", "斯洛伐克"]),
  ("slovenia", ["slovenia", "ljubljana", "\\.si\\b", "斯洛文尼亚"]),
  ("sudan", ["sudan", "khartoum", "\\.sd\\b", "苏丹"]),
  ("syria", ["syria", "damascus", "\\.sy\\b", "叙利亚"]),
  ("tunisia", ["tunisia", "tunis", "\\.tn\\b", "突尼斯"]),
  ("uruguay", ["uruguay", "montevideo", "\\.uy\\b", "乌拉圭"]),
  ("uzbekistan", ["uzbekistan", "tashkent", "\\.uz\\b", "乌兹бекстан"]),
  ("yemen", ["yemen", "sanaa", "\\.ye\\b", "也门"])]

/-- Embedding of detect_by_keywords (src/bot.py lines 1257-1355).  When the
target country is absent from the table the function returns false even if
additional keywords were supplied, exactly as in the source, where both the
extension and the search are guarded by membership of the target in the
table.  The search runs over the lower-cased config text. -/
def detect_by_keywords (config target : String)
    (addKeywords addPatterns : List String) : Bool :=
  match lcLookup keywordTable target with
  | none => false
  | some pats =>
    let effective := pats ++ addKeywords ++ addPatterns
    let configLower := asciiLower config
    effective.any (fun p => (reSearch (mkPat p) configLower).isSome)

/-- Embedding of extract_domain (src/bot.py lines 1463-1476): group 1 of
the url-shaped pattern if it matches, else group 0 of the word-bounded
domain pattern, else none. -/
def extract_domain (config : String) : Option String :=
  match reSearch rxUrlDomain config with
  | some t => t.2
  | none =>
    match reSearch rxDomainWb config with
    | some t => some t.1
    | none => none

/-- Embedding of is_config_relevant (src/bot.py lines 1236-1255): keyword
detection first, then the TLD test on the extracted domain against the
country codes.  The Python truthiness test on the domain is the isEmpty
guard. -/
def is_config_relevant (config target : String)
    (codes addKeywords addPatterns : List String) : Bool :=
  if detect_by_keywords config target addKeywords addPatterns then true
  else
    match extract_domain config with
    | some domain =>
      if domain.isEmpty then false
      else codes.contains (asciiLower ((sSplitOn "." domain).getLastD ""))
    | none => false

/-! The endpoint extractor (extract_host).  Calls into the Python standard
library and third-party parsers (base64 decoding plus utf-8 decoding, JSON
parsing, urllib urlparse) are collaborators outside this repository and are
modelled by an explicit record of total functions; an Except.error value
models the call raising an exception. -/

/-- Outcomes of the library calls made by extract_host.  vmessFields
returns the host and add string fields of the parsed JSON object, when the
payload parses. -/
structure PyLib where
  b64decodeUtf8 : String → Except Unit String
  vmessFields : String → Except Unit (Option String × Option String)
  urlparseHostname : String → Except Unit (Option String)

/-- Base64 padding of the source (line 1364): append equals signs up to a
multiple of four characters. -/
def padB64 (s : String) : String :=
  s ++ String.mk (List.replicate ((4 - s.length % 4) % 4) '=')

/-- Python expression get host or get add with empty-string default (line
1367): the host field if present and non-empty, else the add field if
present, else the empty string. -/
def pyOrStr (h a : Option String) : String :=
  match h with
  | some s => if s.isEmpty then a.getD "" else s
  | none => a.getD ""

/-- Alternative VMess extraction (lines 1371-1374): group 1 of rxVmessAdd
if it matches, else none. -/
def vmessAlt (config : String) : Option String :=
  match reSearch rxVmessAdd config with
  | some t => t.2
  | none => none

/-- Shadowsocks branch (lines 1386-1392): split at the at sign, take the
part before any fragment or path, then the part before the colon.  The
branch body is total, so the except path of the source is unreachable. -/
def ssBranch (config : String) : Option String :=
  let parts := sSplitOn "@" config
  if parts.length < 2 then none
  else
    let hostPort := (sSplitOn "/" ((sSplitOn "#" (parts.getD 1 "")).headD "")).headD ""
    some ((sSplitOn ":" hostPort).headD "")

/-- The five patterns of the general scan (lines 1447-1453), in source
order. -/
def generalPatterns : List Rx :=
  [rxIpv4General, rxDomainGeneral, rxAtHost, rxHostJson, rxAddressEq]

/-- General scan (lines 1454-1457): the whole matched text (group 0) of the
first pattern that matches. -/
def generalScan (config : String) : Option String :=
  generalPatterns.findSome? (fun r => (reSearch r config).map (fun t => t.1))

/-- Embedding of extract_host (src/bot.py lines 1357-1461).  The branch
dispatch, splits and regex fallbacks follow the source; library calls go
through the PyLib record.  The source wraps everything in a try block whose
handler returns none, and every branch of this embedding is total, so the
function never raises. -/
def extract_host (lib : PyLib) (config : String) : Option String :=
  if config.startsWith "vmess://" then
    let encoded := (sSplitOn "?" ((sSplitOn "://" config).getD 1 "")).headD ""
    match lib.b64decodeUtf8 (padB64 encoded) with
    | .ok decoded =>
      match lib.vmessFields decoded with
      | .ok ha => some (pyOrStr ha.1 ha.2)
      | .error _ => vmessAlt config
    | .error _ => vmessAlt config
  else if config.startsWith "vless://" || config.startsWith "trojan://" then
    match lib.urlparseHostname config with
    | .ok h => h
    | .error _ => none
  else if config.startsWith "ss://" then
    ssBranch config
  else if config.startsWith "ssr://" then
    let encoded := (sSplitOn "/" (config.drop 6)).headD ""
    match lib.b64decodeUtf8 (padB64 encoded) with
    | .ok decoded =>
      let parts := sSplitOn ":" decoded
      if parts.length > 2 then some (parts.headD "") else none
    | .error _ => none
  else if ["socks5://", "http://", "https://", "hysteria://", "hysteria2://",
      "brook://"].any (fun p => config.startsWith p) then
    match lib.urlparseHostname config with
    | .ok h => h
    | .error _ => none
  else if containsSubstr config "[Interface]" && containsSubstr config "[Peer]" then
    match reSearch rxWgEndpoint config with
    | some t => t.2
    | none => none
  else if containsSubstr (asciiLower config) "openvpn" then
    match reSearch rxOvpnRemote config with
    | some t => t.2
    | none => none
  else
    generalScan config

/-- A concrete library environment in which every library call raises; used
to instantiate theorems about branches that never consult the library. -/
def stubLib : PyLib :=
  ⟨fun _ => .error (), fun _ => .error (), fun _ => .error ()⟩

/-! The bounded time-expiring cache (class LimitedCache, src/bot.py lines
87-116).  The OrderedDict is an insertion-ordered association list; the
timestamps dictionary is a second association list.  Membership tests with
the in operator use the inherited dict lookup, which ignores the TTL,
because LimitedCache does not override the containment method; only item
access checks the TTL. -/

/-- Update-or-append for an association list, mirroring dict item
assignment (an existing key keeps its position and gets the new value, a
new key is appended at the end). -/
def updEntry {α : Type} : List (String × α) → String → α → List (String × α)
  | [], k, v => [(k, v)]
  | (k', v') :: rest, k, v =>
    if k' == k then (k, v) :: rest else (k', v') :: updEntry rest k v

/-- Maximum retry count of the source (line 36). -/
def MAX_RETRIES : Nat := 8

/-- Cache size bound of the source (line 42). -/
def CACHE_MAX_SIZE : Nat := 5000

/-- Cache time-to-live of the source, in seconds (line 43). -/
def CACHE_TTL : Nat := 3600

/-- The LimitedCache state: entries in insertion order, one timestamp per
key, the size bound and the time-to-live. -/
structure LimitedCache (V : Type) where
  entries : List (String × V)
  stamps : List (String × Nat)
  maxSize : Nat
  ttl : Nat

/-- Membership test with the in operator: the inherited dict containment,
which does not consult the TTL (the source does not override it). -/
def LimitedCache.containsKey {V : Type} (c : LimitedCache V) (k : String) : Bool :=
  (lcLookup c.entries k).isSome

/-- Removal of a key and its timestamp, the effect of the two pop calls in
the expired branch of item access. -/
def LimitedCache.evict {V : Type} (c : LimitedCache V) (k : String) :
    LimitedCache V :=
  { c with entries := eraseKey c.entries k, stamps := eraseKey c.stamps k }

/-- Item access (source lines 95-101): when the key has a timestamp older
than the TTL the entry and its timestamp are removed and a KeyError is
raised (the error value); otherwise the inherited dict access runs, itself
raising when the key is absent. -/
def LimitedCache.getitem {V : Type} (c : LimitedCache V) (now : Nat) (k : String) :
    Except Unit V × LimitedCache V :=
  match lcLookup c.stamps k with
  | some ts =>
    if now - ts > c.ttl then
      (.error (), c.evict k)
    else
      match lcLookup c.entries k with
      | some v => (.ok v, c)
      | none => (.error (), c)
  | none =>
    match lcLookup c.entries k with
    | some v => (.ok v, c)
    | none => (.error (), c)

/-- Item assignment (source lines 103-108): when the cache is full the
oldest entry is evicted (its timestamp is left behind, as in the source,
where popitem does not clean the timestamps dictionary); then the value and
its timestamp are written. -/
def LimitedCache.setitem {V : Type} (c : LimitedCache V) (now : Nat) (k : String)
    (v : V) : LimitedCache V :=
  let c1 := if c.entries.length ≥ c.maxSize then
    { c with entries := c.entries.drop 1 } else c
  { c1 with entries := updEntry c1.entries k v,
            stamps := updEntry c1.stamps k now }

/-- An empty cache with the configured bounds of the source. -/
def emptyCache (V : Type) : LimitedCache V :=
  ⟨[], [], CACHE_MAX_SIZE, CACHE_TTL⟩

/-! The DNS resolver (resolve_dns_async, src/bot.py lines 816-850).  The
external name-resolution collaborators are a DnsEnv record: the outcome of
the asynchronous resolver call and the outcome of each numbered fallback
gethostbyname attempt. -/

/-- Outcome of one gethostbyname_ex attempt: success, the gaierror raised
for names that do not resolve (including authoritative does-not-exist
responses), a socket timeout, or any other exception (which the retry
clause does not catch). -/
inductive FallbackOut where
  | ok (ip : String)
  | gaiError
  | timeoutError
  | otherError

/-- Environment of one resolve call for a fixed host: the asynchronous
resolver outcome (some ip on success, none when it raises) and the outcome
of fallback attempt number a. -/
structure DnsEnv where
  asyncResult : Option String
  fallback : Nat → FallbackOut

/-- The fallback retry loop (source lines 836-846): attempts are numbered
from a; r bounds the remaining iterations (the source range makes r start
at MAX_RETRIES, and the loop always exits by return or raise before r runs
out).  On gaierror or timeout before the last attempt the loop sleeps for
two to the power of the attempt number and retries; on the last attempt it
re-raises, which the outer handler turns into a negative result.  Returns
the resolved ip (none when the outer handler runs), the list of sleep
delays, and the number of attempts made. -/
def fallbackLoop (env : DnsEnv) : Nat → Nat → List Nat → Option String × List Nat × Nat
  | a, 0, ds => (none, ds, a)
  | a, r + 1, ds =>
    match env.fallback a with
    | .ok ip => (some ip, ds, a + 1)
    | .otherError => (none, ds, a + 1)
    | _ =>
      if a < MAX_RETRIES - 1 then fallbackLoop env (a + 1) r (ds ++ [2 ^ a])
      else (none, ds, a + 1)

/-- Anchored IPv4 test of the source (line 822): re.match of four one-to-
three-digit groups joined by dots against the whole string (the trailing
dollar may match before one final newline). -/
def reMatchIpv4 (s : String) : Bool :=
  let t := if sEndsWith s "\n" then s.dropRight 1 else s
  let parts := sSplitOn "." t
  parts.length == 4 &&
    parts.all (fun p => decide (1 ≤ p.length) && decide (p.length ≤ 3) &&
      p.toList.all Char.isDigit)

/-- Result of one resolve call: the returned value (error when a KeyError
escapes), the cache afterwards, the backoff delays slept, and the number of
fallback attempts made. -/
structure ResolveOut where
  result : Except Unit (Option String)
  cache : LimitedCache (Option String)
  delays : List Nat
  attempts : Nat

/-- Embedding of resolve_dns_async (src/bot.py lines 816-850).  The
membership test and the item access on the cache happen before the try
block, so a KeyError raised for an expired entry escapes the function.
Literal IPv4 hosts are returned and cached without consulting the
environment.  Otherwise the asynchronous resolver is consulted, then the
fallback retry loop; any final failure caches a negative entry and returns
none. -/
def resolve_dns_async (env : DnsEnv) (cache : LimitedCache (Option String))
    (now : Nat) (host : String) : ResolveOut :=
  if cache.containsKey host then
    match cache.getitem now host with
    | (.ok v, c) => ⟨.ok v, c, [], 0⟩
    | (.error _, c) => ⟨.error (), c, [], 0⟩
  else if reMatchIpv4 host then
    ⟨.ok (some host), cache.setitem now host (some host), [], 0⟩
  else
    match env.asyncResult with
    | some ip => ⟨.ok (some ip), cache.setitem now host (some ip), [], 0⟩
    | none =>
      match fallbackLoop env 0 MAX_RETRIES [] with
      | (some ip, ds, a) => ⟨.ok (some ip), cache.setitem now host (some ip), ds, a⟩
      | (none, ds, a) => ⟨.ok none, cache.setitem now host none, ds, a⟩

/-! The geolocator (geolocate_ip_async, src/bot.py lines 852-890).  The
maxminddb reader is the external collaborator: a GeoEnv record with the
loaded flag and the per-ip database outcome. -/

/-- A database record: the English country name and the English
registered-country name, each possibly absent (or empty, which the source
treats as absent through Python truthiness). -/
structure GeoRecord where
  countryEn : Option String
  registeredEn : Option String

/-- Outcome of one reader get call. -/
inductive DbOut where
  | found (r : GeoRecord)
  | notFound
  | raised

/-- The geolocation environment: whether the database is loaded and the
outcome of looking up each ip. -/
structure GeoEnv where
  dbLoaded : Bool
  db : String → DbOut

/-- Python truthiness of an optional string: falsy when absent or empty. -/
def pyFalsy : Option String → Bool
  | none => true
  | some s => s.isEmpty

/-- The private-address test of the source (line 863): an anchored match of
the alternation of the prefixes 127., 10., 172.16. through 172.31. and
192.168. — the link-local range 169.254.0.0/16 is not among them. -/
def isPrivateIpMatch (ip : String) : Bool :=
  ip.startsWith "127." || ip.startsWith "10." ||
  ["172.16.", "172.17.", "172.18.", "172.19.", "172.20.", "172.21.",
   "172.22.", "172.23.", "172.24.", "172.25.", "172.26.", "172.27.",
   "172.28.", "172.29.", "172.30.", "172.31."].any
    (fun p => ip.startsWith p) ||
  ip.startsWith "192.168."

/-- Result of one geolocate call: the returned value (error when a KeyError
escapes), the cache afterwards, and whether the offline database was
consulted. -/
structure GeoOut where
  result : Except Unit (Option String)
  cache : LimitedCache (Option String)
  dbConsulted : Bool

/-- Embedding of geolocate_ip_async (src/bot.py lines 852-890).  Without a
loaded database the call returns none and writes nothing.  The cache
membership test and item access happen before the try block, so a KeyError
for an expired entry escapes.  Private addresses short-circuit to none but
do write a negative cache entry.  Otherwise the database is consulted; a
missing record or a raised lookup caches a negative entry; a found record
yields the English country name, with the registered-country name
substituted when the former is falsy, and the value (possibly none) is
cached and returned. -/
def geolocate_ip_async (env : GeoEnv) (cache : LimitedCache (Option String))
    (now : Nat) (ip : String) : GeoOut :=
  if !env.dbLoaded then ⟨.ok none, cache, false⟩
  else if cache.containsKey ip then
    match cache.getitem now ip with
    | (.ok v, c) => ⟨.ok v, c, false⟩
    | (.error _, c) => ⟨.error (), c, false⟩
  else if isPrivateIpMatch ip then
    ⟨.ok none, cache.setitem now ip none, false⟩
  else
    match env.db ip with
    | .raised => ⟨.ok none, cache.setitem now ip none, true⟩
    | .notFound => ⟨.ok none, cache.setitem now ip none, true⟩
    | .found r =>
      let c2 := if pyFalsy r.countryEn then r.registeredEn else r.countryEn
      ⟨.ok c2, cache.setitem now ip c2, true⟩

/-! The funnel orchestrator (strict_search, src/bot.py lines 892-1121).
The cancellation flag stop_strict_search is set asynchronously by the user
and only ever goes from unset to set during a run; each loop models its
per-iteration reads of the flag as a Boolean function of the iteration
index.  The verdicts of stage two (the contents of host_country_map, which
depend on the network environment) enter the model as a function from hosts
to optional country names. -/

/-- Stage-one loop (source lines 923-954): at each index the flag is read
(a set flag breaks out of the loop), then the config is appended when
is_config_relevant accepts it.  Exceptions from the relevance check are
caught and skip the config; the embedded check is total, so that handler
has no effect here. -/
def prelimFilterGo (stop : Nat → Bool) (rel : String → Bool) :
    Nat → List String → List String
  | _, [] => []
  | i, c :: rest =>
    if stop i then []
    else (if rel c then [c] else []) ++ prelimFilterGo stop rel (i + 1) rest

/-- Stage-one filter from index zero. -/
def prelimFilter (stop : Nat → Bool) (rel : String → Bool)
    (configs : List String) : List String :=
  prelimFilterGo stop rel 0 configs

/-- The stage-one processed counter (source line 939): incremented once per
iteration that was not cut short by the flag, whether or not the config was
accepted. -/
def processedCount (stop : Nat → Bool) : Nat → List String → Nat
  | _, [] => 0
  | i, _ :: rest =>
    if stop i then 0 else 1 + processedCount stop (i + 1) rest

/-- Insertion of one config under its host key, mirroring the dict update
of source lines 972-974: an existing group keeps its position and gains the
config at the end; a new host is appended. -/
def insertGroup (h c : String) : List (String × List String) →
    List (String × List String)
  | [] => [(h, [c])]
  | (k, cs) :: rest =>
    if k == h then (k, cs ++ [c]) :: rest
    else (k, cs) :: insertGroup h c rest

/-- Host-grouping loop (source lines 967-976) over the surviving configs,
threading the accumulated groups and the count of host-less configs.  A
config whose extraction result is falsy (none or the empty string) is only
counted. -/
def groupByHostGo (extract : String → Option String) :
    List (String × List String) × Nat → List String →
    List (String × List String) × Nat
  | acc, [] => acc
  | (gs, n), c :: rest =>
    match extract c with
    | some h =>
      if h.isEmpty then groupByHostGo extract (gs, n + 1) rest
      else groupByHostGo extract (insertGroup h c gs, n) rest
    | none => groupByHostGo extract (gs, n + 1) rest

/-- Host grouping from the empty accumulator: the groups in first-seen
order and the number of host-less configs. -/
def groupByHost (extract : String → Option String) (prelim : List String) :
    List (String × List String) × Nat :=
  groupByHostGo extract ([], 0) prelim

/-- The strict-stage country comparison of source line 1082: the verdict
must be truthy and equal to the target under lower-casing. -/
def countryMatches (oc : Option String) (target : String) : Bool :=
  match oc with
  | some c => !c.isEmpty && asciiLower c == asciiLower target
  | none => false

/-- Final collection loop (source lines 1075-1083): for each unique host in
order, the flag is read first (a set flag breaks out, discarding every
remaining group), then the whole group is appended when its verdict matches
the target. -/
def collectValidGo (stop : Nat → Bool) (target : String)
    (m : String → Option String) :
    Nat → List (String × List String) → List String
  | _, [] => []
  | i, (h, cs) :: rest =>
    if stop i then []
    else (if countryMatches (m h) target then cs else []) ++
      collectValidGo stop target m (i + 1) rest

/-- Final collection from index zero. -/
def collectValid (stop : Nat → Bool) (target : String)
    (m : String → Option String) (groups : List (String × List String)) :
    List String :=
  collectValidGo stop target m 0 groups

/-- Terminal outcomes of one strict-search run: the early returns for
missing data, unavailable database, no lexical survivor and no extracted
host, or the final report carrying the collected matches and whether it was
delivered as a stopped (cancelled) report. -/
inductive StrictOutcome where
  | noData
  | noDb
  | noPrelim
  | noHosts
  | finished (found : List String) (cancelledReport : Bool)
deriving DecidableEq

/-- Embedding of the strict_search orchestration (src/bot.py lines
892-1121): the guard on missing configs or target, the geolocation-database
guard, stage one, host grouping with its empty-hosts guard, and the final
collection.  The hostCountry argument stands for the lookups into
host_country_map produced by stage two; stopReport is the flag value read
when the terminal message is chosen (line 1089). -/
def strict_search (lib : PyLib) (dbLoaded : Bool) (target : String)
    (codes addKeywords addPatterns : List String) (stop1 : Nat → Bool)
    (hostCountry : String → Option String) (stopC : Nat → Bool)
    (stopReport : Bool) (configs : List String) : StrictOutcome :=
  if configs.isEmpty || target.isEmpty then .noData
  else if !dbLoaded then .noDb
  else
    let prelim := prelimFilter stop1
      (fun c => is_config_relevant c target codes addKeywords addPatterns) configs
    if prelim.isEmpty then .noPrelim
    else
      let g := groupByHost (fun c => extract_host lib c) prelim
      if g.1.isEmpty then .noHosts
      else .finished (collectValid stopC target hostCountry g.1) stopReport

/-! The stage-two progress counter (total_processed, source lines
1007-1073).  One process_host task is created per unique host; the
as-completed loop awaits each with a timeout.  The counter is incremented
once inside process_host when a task that saw the flag unset finishes
(normally or through its own handler), and once in the loop for a timeout
or other loop exception.  A wait timeout cancels only the as-completed
wrapper, never the underlying task, which still runs to completion and
performs its own increment; the trace lists the increments in the order
they happen. -/

/-- One observable increment event of stage two. -/
inductive HostEv where
  | taskDone (host : String) (failed : Bool)
  | taskSkipped (host : String)
  | loopTimeout
  | loopError

/-- Contribution of one event to total_processed: a completed task
increments once (on success and on its internal failure handler alike), a
task that saw the cancellation flag returns without incrementing, and the
timeout and exception handlers of the results loop increment once. -/
def evInc : HostEv → Nat
  | .taskDone _ _ => 1
  | .taskSkipped _ => 0
  | .loopTimeout => 1
  | .loopError => 1

/-- The value of total_processed after a trace of events. -/
def total_processed (tr : List HostEv) : Nat :=
  (tr.map evInc).sum

/-- Recognizer for completed-task events. -/
def isTaskDone : HostEv → Bool
  | .taskDone _ _ => true
  | _ => false

/-! Supporting lemmas about the pipeline functions. -/

/-- Every config accepted by the stage-one loop passed the relevance check
and came from the input batch. -/
lemma mem_prelimFilterGo {stop : Nat → Bool} {rel : String → Bool} :
    ∀ {i : Nat} {l : List String} {c : String},
      c ∈ prelimFilterGo stop rel i l → rel c = true ∧ c ∈ l := by
  intro i l
  induction l generalizing i with
  | nil => intro c h; simp [prelimFilterGo] at h
  | cons a rest ih =>
    intro c h
    simp only [prelimFilterGo] at h
    by_cases hs : stop i = true
    · simp [hs] at h
    · simp only [hs, if_false, Bool.false_eq_true] at h
      rcases List.mem_append.1 h with h1 | h2
      · by_cases hr : rel a = true
        · simp only [hr, if_true, List.mem_singleton] at h1
          subst h1
          exact ⟨hr, List.mem_cons_self _ _⟩
        · simp [hr] at h1
      · rcases ih h2 with ⟨hrel, hmem⟩
        exact ⟨hrel, List.mem_cons_of_mem _ hmem⟩

/-- Membership in a group after inserting one config: either the config was
already in some group, or it is the inserted one and the group is its
host. -/
lemma mem_insertGroup {h c0 : String} {c : String} :
    ∀ {gs : List (String × List String)} {p : String × List String},
      p ∈ insertGroup h c0 gs → c ∈ p.2 →
      (∃ q, q ∈ gs ∧ c ∈ q.2) ∨ (c = c0 ∧ p.1 = h) := by
  intro gs
  induction gs with
  | nil =>
    intro p hp hc
    simp only [insertGroup, List.mem_singleton] at hp
    subst hp
    simp only [List.mem_singleton] at hc
    exact Or.inr ⟨hc, rfl⟩
  | cons q rest ih =>
    obtain ⟨k, cs⟩ := q
    intro p hp hc
    by_cases hk : k == h
    · simp only [insertGroup, hk, if_true] at hp
      rcases List.mem_cons.1 hp with h1 | h2
      · subst h1
        rcases List.mem_append.1 hc with hc1 | hc2
        · exact Or.inl ⟨(k, cs), List.mem_cons_self _ _, hc1⟩
        · simp only [List.mem_singleton] at hc2
          exact Or.inr ⟨hc2, beq_iff_eq.mp hk⟩
      · exact Or.inl ⟨p, List.mem_cons_of_mem _ h2, hc⟩
    · simp only [insertGroup, hk, if_false, Bool.false_eq_true] at hp
      rcases List.mem_cons.1 hp with h1 | h2
      · subst h1
        exact Or.inl ⟨(k, cs), List.mem_cons_self _ _, hc⟩
      · rcases ih h2 hc with ⟨q', hq', hcq'⟩ | hr
        · exact Or.inl ⟨q', List.mem_cons_of_mem _ hq', hcq'⟩
        · exact Or.inr hr

/-- Every member of a group produced by the grouping loop either was
already in an accumulator group or is an input config whose extraction
result is truthy. -/
lemma mem_groupByHostGo {e : String → Option String} {c : String} :
    ∀ {l : List String} {acc : List (String × List String) × Nat}
      {p : String × List String},
      p ∈ (groupByHostGo e acc l).1 → c ∈ p.2 →
      (∃ q, q ∈ acc.1 ∧ c ∈ q.2) ∨
        (c ∈ l ∧ ∃ h, e c = some h ∧ h.isEmpty = false) := by
  intro l
  induction l with
  | nil => intro acc p hp hc; exact Or.inl ⟨p, hp, hc⟩
  | cons a rest ih =>
    intro acc p hp hc
    obtain ⟨gs, n⟩ := acc
    simp only [groupByHostGo] at hp
    rcases he : e a with _ | h
    · rw [he] at hp
      rcases ih hp hc with hacc | ⟨hmem, hex⟩
      · exact Or.inl hacc
      · exact Or.inr ⟨List.mem_cons_of_mem _ hmem, hex⟩
    · rw [he] at hp
      by_cases hemp : h.isEmpty
      · simp only [hemp, if_true] at hp
        rcases ih hp hc with hacc | ⟨hmem, hex⟩
        · exact Or.inl hacc
        · exact Or.inr ⟨List.mem_cons_of_mem _ hmem, hex⟩
      · simp only [hemp, if_false, Bool.false_eq_true] at hp
        rcases ih hp hc with ⟨q, hq, hcq⟩ | ⟨hmem, hex⟩
        · rcases mem_insertGroup hq hcq with hold | ⟨hceq, _⟩
          · exact Or.inl hold
          · subst hceq
            exact Or.inr ⟨List.mem_cons_self _ _, h, he,
              Bool.not_eq_true _ ▸ (by simpa using hemp)⟩
        · exact Or.inr ⟨List.mem_cons_of_mem _ hmem, hex⟩

/-- The final collection with the flag never set, as a straight
concatenation of the matching groups. -/
def collectAll (target : String) (m : String → Option String) :
    List (String × List String) → List String
  | [] => []
  | p :: rest =>
    (if countryMatches (m p.1) target then p.2 else []) ++ collectAll target m rest

/-- With the cancellation flag unset throughout, the collection loop
returns exactly the concatenation of the matching groups. -/
lemma collectValidGo_false {target : String} {m : String → Option String} :
    ∀ (gs : List (String × List String)) (i : Nat),
      collectValidGo (fun _ => false) target m i gs = collectAll target m gs := by
  intro gs
  induction gs with
  | nil => intro i; rfl
  | cons p rest ih =>
    intro i
    simp only [collectValidGo, collectAll, if_false, Bool.false_eq_true, ih (i + 1)]

/-- Membership in the concatenation of matching groups. -/
lemma mem_collectAll {target : String} {m : String → Option String} {c : String} :
    ∀ {gs : List (String × List String)},
      c ∈ collectAll target m gs ↔
        ∃ p, p ∈ gs ∧ c ∈ p.2 ∧ countryMatches (m p.1) target = true := by
  intro gs
  induction gs with
  | nil => simp [collectAll]
  | cons p rest ih =>
    constructor
    · intro h
      rcases List.mem_append.1 h with h1 | h2
      · by_cases hm : countryMatches (m p.1) target = true
        · rw [if_pos hm] at h1
          exact ⟨p, List.mem_cons_self _ _, h1, hm⟩
        · rw [if_neg hm] at h1
          exact absurd h1 (List.not_mem_nil _)
      · rcases ih.1 h2 with ⟨q, hq, hcq, hmq⟩
        exact ⟨q, List.mem_cons_of_mem _ hq, hcq, hmq⟩
    · rintro ⟨q, hq, hcq, hmq⟩
      rcases List.mem_cons.1 hq with h1 | h2
      · subst h1
        exact List.mem_append.2 (Or.inl (by rw [if_pos hmq]; exact hcq))
      · exact List.mem_append.2 (Or.inr (ih.2 ⟨q, h2, hcq, hmq⟩))

/-- A set cancellation flag empties the collection loop at its first
iteration. -/
lemma collectValidGo_true {target : String} {m : String → Option String} :
    ∀ (gs : List (String × List String)) (i : Nat),
      collectValidGo (fun _ => true) target m i gs = [] := by
  intro gs i
  cases gs with
  | nil => rfl
  | cons p rest => simp [collectValidGo]

/-- Members of any collection result come from the groups and satisfy the
country comparison. -/
lemma mem_collectValidGo {stop : Nat → Bool} {target : String}
    {m : String → Option String} {c : String} :
    ∀ {gs : List (String × List String)} {i : Nat},
      c ∈ collectValidGo stop target m i gs →
      ∃ p, p ∈ gs ∧ c ∈ p.2 ∧ countryMatches (m p.1) target = true := by
  intro gs
  induction gs with
  | nil => intro i h; simp [collectValidGo] at h
  | cons p rest ih =>
    intro i h
    simp only [collectValidGo] at h
    by_cases hs : stop i = true
    · simp [hs] at h
    · simp only [hs, if_false, Bool.false_eq_true] at h
      rcases List.mem_append.1 h with h1 | h2
      · by_cases hm : countryMatches (m p.1) target = true
        · rw [if_pos hm] at h1
          exact ⟨p, List.mem_cons_self _ _, h1, hm⟩
        · rw [if_neg hm] at h1
          exact absurd h1 (List.not_mem_nil _)
      · rcases ih h2 with ⟨q, hq, hcq, hmq⟩
        exact ⟨q, List.mem_cons_of_mem _ hq, hcq, hmq⟩


/-- Looking up the inserted host finds its group, now ending in the new
config. -/
lemma lcLookup_insertGroup_self {h c : String} :
    ∀ (gs : List (String × List String)),
      lcLookup (insertGroup h c gs) h =
        some (((lcLookup gs h).getD []) ++ [c]) := by
  intro gs
  induction gs with
  | nil => simp [insertGroup, lcLookup]
  | cons q rest ih =>
    obtain ⟨k, cs⟩ := q
    by_cases hk : (k == h) = true
    · simp only [insertGroup, hk, if_true]
      unfold lcLookup
      rw [List.find?_cons_of_pos _ (by simpa using hk),
        List.find?_cons_of_pos _ (by simpa using hk)]
      simp
    · simp only [insertGroup, hk, if_false, Bool.false_eq_true]
      unfold lcLookup at ih ⊢
      rw [List.find?_cons_of_neg _ (by simpa using hk),
        List.find?_cons_of_neg _ (by simpa using hk)]
      exact ih

/-- Inserting a config under one host leaves lookups of any other host
unchanged. -/
lemma lcLookup_insertGroup_ne {hIns c hOther : String}
    (hne : hIns = hOther → False) :
    ∀ (gs : List (String × List String)),
      lcLookup (insertGroup hIns c gs) hOther = lcLookup gs hOther := by
  intro gs
  induction gs with
  | nil =>
    simp only [insertGroup, lcLookup, List.find?]
    have : (hIns == hOther) = false := by
      simpa using fun hh => hne hh
    simp [this]
  | cons q rest ih =>
    obtain ⟨k, cs⟩ := q
    by_cases hk : (k == hIns) = true
    · have hkh : (k == hOther) = false := by
        have hkeq : k = hIns := beq_iff_eq.mp hk
        simpa [hkeq] using fun hh => hne hh
      simp only [insertGroup, hk, if_true]
      unfold lcLookup
      rw [List.find?_cons_of_neg _ (by simpa using hkh),
        List.find?_cons_of_neg _ (by simpa using hkh)]
    · simp only [insertGroup, hk, if_false, Bool.false_eq_true]
      by_cases hko : (k == hOther) = true
      · unfold lcLookup
        rw [List.find?_cons_of_pos _ (by simpa using hko),
          List.find?_cons_of_pos _ (by simpa using hko)]
      · unfold lcLookup at ih ⊢
        rw [List.find?_cons_of_neg _ (by simpa using hko),
          List.find?_cons_of_neg _ (by simpa using hko)]
        exact ih

/-- Once a config sits in the group of its host, the rest of the grouping
loop keeps it there. -/
lemma groupByHostGo_preserve {e : String → Option String} {h c : String} :
    ∀ (l : List String) (acc : List (String × List String) × Nat)
      (cs : List String),
      lcLookup acc.1 h = some cs → c ∈ cs →
      ∃ cs', lcLookup (groupByHostGo e acc l).1 h = some cs' ∧ c ∈ cs' := by
  intro l
  induction l with
  | nil => intro acc cs hl hc; exact ⟨cs, hl, hc⟩
  | cons a rest ih =>
    intro acc cs hl hc
    obtain ⟨gs, n⟩ := acc
    simp only [groupByHostGo]
    rcases he : e a with _ | h'
    · exact ih (gs, n + 1) cs hl hc
    · by_cases hemp : h'.isEmpty
      · simp only [hemp, if_true]
        exact ih (gs, n + 1) cs hl hc
      · simp only [hemp, if_false, Bool.false_eq_true]
        by_cases hh : h' = h
        · subst hh
          refine ih _ (cs ++ [a]) ?_ (List.mem_append.2 (Or.inl hc))
          rw [lcLookup_insertGroup_self]
          simp [hl]
        · refine ih _ cs ?_ hc
          rw [lcLookup_insertGroup_ne hh]
          exact hl

/-- A config of the batch whose extraction yields the truthy host h ends up
in the group looked up under h. -/
lemma groupByHostGo_mem {e : String → Option String} {h c : String}
    (hext : e c = some h) (hne : h.isEmpty = false) :
    ∀ (l : List String) (acc : List (String × List String) × Nat),
      c ∈ l →
      ∃ cs, lcLookup (groupByHostGo e acc l).1 h = some cs ∧ c ∈ cs := by
  intro l
  induction l with
  | nil => intro acc hc; exact absurd hc (List.not_mem_nil _)
  | cons a rest ih =>
    intro acc hc
    obtain ⟨gs, n⟩ := acc
    rcases List.mem_cons.1 hc with h1 | h2
    · subst h1
      simp only [groupByHostGo, hext, hne, if_false, Bool.false_eq_true]
      refine groupByHostGo_preserve rest _ (((lcLookup gs h).getD []) ++ [c]) ?_
        (List.mem_append.2 (Or.inr (List.mem_singleton.2 rfl)))
      exact lcLookup_insertGroup_self gs
    · simp only [groupByHostGo]
      rcases he : e a with _ | h'
      · exact ih (gs, n + 1) h2
      · by_cases hemp : h'.isEmpty
        · simp only [hemp, if_true]
          exact ih (gs, n + 1) h2
        · simp only [hemp, if_false, Bool.false_eq_true]
          exact ih _ h2

/-- Keys appearing after an insertion: an old key or the inserted host. -/
lemma mem_keys_insertGroup {a h c : String} :
    ∀ {gs : List (String × List String)},
      a ∈ (insertGroup h c gs).map Prod.fst → a ∈ gs.map Prod.fst ∨ a = h := by
  intro gs
  induction gs with
  | nil =>
    intro hmem
    simp only [insertGroup, List.map_cons, List.map_nil, List.mem_singleton] at hmem
    exact Or.inr hmem
  | cons q rest ih =>
    obtain ⟨k, cs⟩ := q
    intro hmem
    by_cases hk : (k == h) = true
    · simp only [insertGroup, hk, if_true, List.map_cons, List.mem_cons] at hmem
      rcases hmem with h1 | h2
      · exact Or.inr (h1.trans (beq_iff_eq.mp hk))
      · exact Or.inl (List.mem_cons_of_mem _ h2)
    · simp only [insertGroup, hk, if_false, Bool.false_eq_true, List.map_cons,
        List.mem_cons] at hmem
      rcases hmem with h1 | h2
      · exact Or.inl (by simp [h1])
      · rcases ih h2 with h3 | h4
        · exact Or.inl (List.mem_cons_of_mem _ h3)
        · exact Or.inr h4

/-- Insertion keeps the host keys pairwise distinct. -/
lemma nodup_keys_insertGroup {h c : String} :
    ∀ {gs : List (String × List String)},
      (gs.map Prod.fst).Nodup → ((insertGroup h c gs).map Prod.fst).Nodup := by
  intro gs
  induction gs with
  | nil => intro _; simp [insertGroup]
  | cons q rest ih =>
    obtain ⟨k, cs⟩ := q
    intro hnd
    simp only [List.map_cons, List.nodup_cons] at hnd
    by_cases hk : (k == h) = true
    · have hkeq : k = h := beq_iff_eq.mp hk
      subst hkeq
      simp only [insertGroup, beq_self_eq_true, if_true, List.map_cons,
        List.nodup_cons]
      exact hnd
    · simp only [insertGroup, hk, if_false, Bool.false_eq_true, List.map_cons,
        List.nodup_cons]
      refine ⟨fun hmem => ?_, ih hnd.2⟩
      rcases mem_keys_insertGroup hmem with h1 | h2
      · exact hnd.1 h1
      · exact absurd (beq_iff_eq.mpr h2) (by simpa using hk)

/-- The grouping loop keeps the host keys pairwise distinct. -/
lemma nodup_keys_groupByHostGo {e : String → Option String} :
    ∀ (l : List String) (acc : List (String × List String) × Nat),
      (acc.1.map Prod.fst).Nodup →
      (((groupByHostGo e acc l).1).map Prod.fst).Nodup := by
  intro l
  induction l with
  | nil => intro acc h; exact h
  | cons a rest ih =>
    intro acc h
    obtain ⟨gs, n⟩ := acc
    simp only [groupByHostGo]
    rcases e a with _ | h'
    · exact ih (gs, n + 1) h
    · by_cases hemp : h'.isEmpty
      · simp only [hemp, if_true]
        exact ih (gs, n + 1) h
      · simp only [hemp, if_false, Bool.false_eq_true]
        exact ih _ (nodup_keys_insertGroup h)

/-- The unique hosts of a batch are pairwise distinct: the grouping map is
keyed like a dictionary, so one process_host task is created per host. -/
lemma nodup_keys_groupByHost {e : String → Option String} {l : List String} :
    (((groupByHost e l).1).map Prod.fst).Nodup :=
  nodup_keys_groupByHostGo l ([], 0) (by simp)

/-! Supporting lemmas about the caches. -/

/-- Assigning a key makes its lookup return the assigned value. -/
lemma lcLookup_updEntry_self {α : Type} {k : String} {v : α} :
    ∀ (l : List (String × α)), lcLookup (updEntry l k v) k = some v := by
  intro l
  induction l with
  | nil => simp [updEntry, lcLookup]
  | cons q rest ih =>
    obtain ⟨k', v'⟩ := q
    by_cases hk : (k' == k) = true
    · simp only [updEntry, hk, if_true]
      unfold lcLookup
      rw [List.find?_cons_of_pos _ (by simp)]
      rfl
    · simp only [updEntry, hk, if_false, Bool.false_eq_true]
      unfold lcLookup at ih ⊢
      rw [List.find?_cons_of_neg _ (by simpa using hk)]
      exact ih

/-- A removed key is no longer found. -/
lemma lcLookup_eraseKey {α : Type} {k : String} :
    ∀ (l : List (String × α)), lcLookup (eraseKey l k) k = none := by
  intro l
  induction l with
  | nil => simp [eraseKey, lcLookup]
  | cons q rest ih =>
    obtain ⟨k', v'⟩ := q
    by_cases hk : (k' == k) = true
    · simp only [eraseKey, List.filter_cons, hk, Bool.not_true, if_false,
        Bool.false_eq_true]
      exact ih
    · simp only [eraseKey, List.filter_cons, hk, Bool.not_false, if_true]
      unfold lcLookup at ih ⊢
      rw [List.find?_cons_of_neg _ (by simpa using hk)]
      exact ih

/-- After a cache assignment the written key holds the written value. -/
lemma lcLookup_setitem_self {V : Type} (c : LimitedCache V) (now : Nat)
    (k : String) (v : V) :
    lcLookup (c.setitem now k v).entries k = some v := by
  unfold LimitedCache.setitem
  by_cases hf : c.entries.length ≥ c.maxSize
  · simp only [hf, if_true]
    exact lcLookup_updEntry_self _
  · simp only [hf, if_false]
    exact lcLookup_updEntry_self _

/-! Supporting lemmas about the resolver retry loop and the progress
counters. -/

/-- One failed attempt of the kinds that the retry clause catches either
retries with the doubled delay or, on the last attempt, re-raises into the
negative result. -/
lemma fallbackLoop_retry_step {env : DnsEnv} {a r : Nat} {ds : List Nat}
    (hfail : env.fallback a = FallbackOut.gaiError ∨
      env.fallback a = FallbackOut.timeoutError) :
    fallbackLoop env a (r + 1) ds =
      if a < MAX_RETRIES - 1 then fallbackLoop env (a + 1) r (ds ++ [2 ^ a])
      else (none, ds, a + 1) := by
  rcases hfail with h | h <;> simp [fallbackLoop, h]

/-- When every attempt fails with a caught error class, the loop makes all
eight attempts, sleeping the doubling backoff delays, and ends in the
negative result. -/
lemma fallbackLoop_allFail {env : DnsEnv}
    (hfail : ∀ a, env.fallback a = FallbackOut.gaiError ∨
      env.fallback a = FallbackOut.timeoutError) :
    fallbackLoop env 0 MAX_RETRIES [] = (none, [1, 2, 4, 8, 16, 32, 64], 8) := by
  rw [show (MAX_RETRIES : Nat) = 8 from rfl]
  rw [fallbackLoop_retry_step (hfail 0), if_pos (by decide)]
  rw [fallbackLoop_retry_step (hfail 1), if_pos (by decide)]
  rw [fallbackLoop_retry_step (hfail 2), if_pos (by decide)]
  rw [fallbackLoop_retry_step (hfail 3), if_pos (by decide)]
  rw [fallbackLoop_retry_step (hfail 4), if_pos (by decide)]
  rw [fallbackLoop_retry_step (hfail 5), if_pos (by decide)]
  rw [fallbackLoop_retry_step (hfail 6), if_pos (by decide)]
  rw [fallbackLoop_retry_step (hfail 7), if_neg (by decide)]
  decide

/-- The counter value over a longer prefix of the event trace is at least
the value over a shorter one. -/
lemma total_processed_take_mono (tr : List HostEv) (k : Nat) :
    total_processed (tr.take k) ≤ total_processed (tr.take (k + 1)) := by
  rw [List.take_succ]
  simp only [total_processed, List.map_append, List.sum_append]
  exact Nat.le_add_right _ _

/-- A trace of completed tasks only contributes exactly one increment per
event. -/
lemma total_processed_all_done :
    ∀ (tr : List HostEv), tr.all isTaskDone = true →
      total_processed tr = tr.length := by
  intro tr
  induction tr with
  | nil => intro _; rfl
  | cons e rest ih =>
    intro hall
    simp only [List.all_cons, Bool.and_eq_true] at hall
    cases e with
    | taskDone host failed =>
      simp only [total_processed, List.map_cons, List.sum_cons, evInc,
        List.length_cons]
      have := ih hall.2
      simp only [total_processed] at this
      omega
    | taskSkipped host => simp [isTaskDone] at hall
    | loopTimeout => simp [isTaskDone] at hall
    | loopError => simp [isTaskDone] at hall

/-- Without cancellation, stage one counts every config exactly once. -/
lemma processedCount_false :
    ∀ (l : List String) (i : Nat),
      processedCount (fun _ => false) i l = l.length := by
  intro l
  induction l with
  | nil => intro i; rfl
  | cons a rest ih =>
    intro i
    simp only [processedCount, Bool.false_eq_true, if_false, List.length_cons,
      ih (i + 1)]
    omega

/-! Claim theorems. -/

/-- Claim C5 counterexample: with a resolution-cache entry for h.example
inserted at time 0 and accessed at time 3601 (one second past the 3600
second TTL), the access does not refresh the value: the membership test
uses the inherited dict containment (TTL-blind), the item access then
raises KeyError, and the KeyError escapes resolve_dns_async, where the same
call on a cache that never held the key succeeds against the resolver.  So
an expired entry does not behave as if it were never cached, refuting the
claim that the access never fails and refreshes the value. -/
theorem c5_counterexample :
    (resolve_dns_async ⟨some "9.9.9.9", fun _ => FallbackOut.gaiError⟩
      ((emptyCache (Option String)).setitem 0 "h.example" (some "1.2.3.4"))
      3601 "h.example").result = Except.error () ∧
    (resolve_dns_async ⟨some "9.9.9.9", fun _ => FallbackOut.gaiError⟩
      (emptyCache (Option String)) 3601 "h.example").result =
      Except.ok (some "9.9.9.9") :=
  ⟨by with_unfolding_all rfl, by with_unfolding_all rfl⟩

/-- Claim C5 (amended): an expired cache entry is never read back (the
stale value cannot be returned) and is evicted by the access, but the
access itself raises KeyError, which escapes resolve_dns_async; only the
following access, finding the key absent, performs the fresh lookup. -/
theorem c5_expired_entry_behavior (env : DnsEnv)
    (c : LimitedCache (Option String)) (now : Nat) (host ip : String)
    (ts : Nat) (v : Option String)
    (hts : lcLookup c.stamps host = some ts)
    (hexp : now - ts > c.ttl)
    (hval : lcLookup c.entries host = some v)
    (hip : reMatchIpv4 host = false)
    (hasync : env.asyncResult = some ip) :
    (resolve_dns_async env c now host).result = Except.error () ∧
    (resolve_dns_async env c now host).cache.containsKey host = false ∧
    (resolve_dns_async env
      (resolve_dns_async env c now host).cache now host).result =
      Except.ok (some ip) := by
  have hck : c.containsKey host = true := by
    unfold LimitedCache.containsKey
    rw [hval]
    rfl
  have hget : c.getitem now host = (Except.error (), c.evict host) := by
    simp only [LimitedCache.getitem, hts]
    rw [if_pos hexp]
  have h1 : resolve_dns_async env c now host =
      ⟨Except.error (), c.evict host, [], 0⟩ := by
    simp only [resolve_dns_async, hck, if_true, hget]
  have hck2 : (c.evict host).containsKey host = false := by
    unfold LimitedCache.containsKey LimitedCache.evict
    rw [lcLookup_eraseKey]
    rfl
  refine ⟨by rw [h1], by rw [h1]; exact hck2, ?_⟩
  rw [h1]
  simp only [resolve_dns_async, hck2, Bool.false_eq_true, if_false, hip, hasync]

/-- Claim C5 witness: the amended statement applied at a concrete expired
entry. -/
theorem c5_expired_entry_behavior_witness :
    (resolve_dns_async ⟨some "9.9.9.9", fun _ => FallbackOut.gaiError⟩
      ((emptyCache (Option String)).setitem 0 "h.example" (some "1.2.3.4"))
      3601 "h.example").result = Except.error () ∧
    (resolve_dns_async ⟨some "9.9.9.9", fun _ => FallbackOut.gaiError⟩
      ((emptyCache (Option String)).setitem 0 "h.example" (some "1.2.3.4"))
      3601 "h.example").cache.containsKey "h.example" = false ∧
    (resolve_dns_async ⟨some "9.9.9.9", fun _ => FallbackOut.gaiError⟩
      (resolve_dns_async ⟨some "9.9.9.9", fun _ => FallbackOut.gaiError⟩
        ((emptyCache (Option String)).setitem 0 "h.example" (some "1.2.3.4"))
        3601 "h.example").cache 3601 "h.example").result =
      Except.ok (some "9.9.9.9") :=
  c5_expired_entry_behavior ⟨some "9.9.9.9", fun _ => FallbackOut.gaiError⟩
    ((emptyCache (Option String)).setitem 0 "h.example" (some "1.2.3.4"))
    3601 "h.example" "9.9.9.9" 0 (some "1.2.3.4")
    (by with_unfolding_all rfl) (by with_unfolding_all decide)
    (by with_unfolding_all rfl) (by with_unfolding_all rfl) rfl

/-- Claim C7 counterexample: the link-local address 169.254.1.1 is not
matched by the private-address pattern, so the geolocator does consult the
offline database for it and returns whatever the database says; and the
short-circuit for 127.0.0.1 writes a negative entry (value none) into the
geo cache, indistinguishable from a failed lookup.  Both halves refute the
claim. -/
theorem c7_counterexample :
    isPrivateIpMatch "169.254.1.1" = false ∧
    (geolocate_ip_async ⟨true, fun _ => DbOut.found ⟨some "Utopia", none⟩⟩
      (emptyCache (Option String)) 0 "169.254.1.1").dbConsulted = true ∧
    (geolocate_ip_async ⟨true, fun _ => DbOut.found ⟨some "Utopia", none⟩⟩
      (emptyCache (Option String)) 0 "169.254.1.1").result =
      Except.ok (some "Utopia") ∧
    lcLookup ((geolocate_ip_async ⟨true, fun _ => DbOut.found ⟨some "Utopia", none⟩⟩
      (emptyCache (Option String)) 0 "127.0.0.1").cache).entries "127.0.0.1" =
      some none :=
  ⟨by with_unfolding_all rfl, by with_unfolding_all rfl,
   by with_unfolding_all rfl, by with_unfolding_all rfl⟩

/-- Claim C7 (amended): the addresses short-circuited without consulting
the database are exactly those matching the source pattern (prefixes 127.,
10., 172.16. through 172.31. and 192.168. — link-local 169.254.0.0/16 is
not among them), and the short-circuit does write a negative cache
entry. -/
theorem c7_private_shortcircuit (env : GeoEnv) (c : LimitedCache (Option String))
    (now : Nat) (ip : String)
    (hdb : env.dbLoaded = true)
    (hck : c.containsKey ip = false)
    (hpriv : isPrivateIpMatch ip = true) :
    (geolocate_ip_async env c now ip).result = Except.ok none ∧
    (geolocate_ip_async env c now ip).dbConsulted = false ∧
    lcLookup (geolocate_ip_async env c now ip).cache.entries ip = some none := by
  have h1 : geolocate_ip_async env c now ip =
      ⟨Except.ok none, c.setitem now ip none, false⟩ := by
    simp only [geolocate_ip_async, hdb, hck, hpriv, Bool.not_true,
      Bool.false_eq_true, if_false, if_true]
  rw [h1]
  exact ⟨rfl, rfl, lcLookup_setitem_self c now ip none⟩

/-- Claim C7 witness: the amended statement applied at the loopback
address. -/
theorem c7_private_shortcircuit_witness :
    (geolocate_ip_async ⟨true, fun _ => DbOut.notFound⟩
      (emptyCache (Option String)) 0 "127.0.0.1").result = Except.ok none ∧
    (geolocate_ip_async ⟨true, fun _ => DbOut.notFound⟩
      (emptyCache (Option String)) 0 "127.0.0.1").dbConsulted = false ∧
    lcLookup ((geolocate_ip_async ⟨true, fun _ => DbOut.notFound⟩
      (emptyCache (Option String)) 0 "127.0.0.1").cache).entries "127.0.0.1" =
      some none :=
  c7_private_shortcircuit ⟨true, fun _ => DbOut.notFound⟩
    (emptyCache (Option String)) 0 "127.0.0.1" rfl
    (by with_unfolding_all rfl) (by with_unfolding_all rfl)

/-- Claim C8 counterexample: with the asynchronous resolver failing, a
first fallback attempt that raises gaierror (the class of authoritative
does-not-exist responses) and a second that succeeds, the code sleeps one
second and retries, and the second attempt is made: retries are not limited
to timeouts, refuting the claim that authoritative failures are never
retried. -/
theorem c8_counterexample :
    (resolve_dns_async ⟨none, fun a => if a == 0 then FallbackOut.gaiError
        else FallbackOut.ok "5.6.7.8"⟩
      (emptyCache (Option String)) 0 "nxd.example").result =
      Except.ok (some "5.6.7.8") ∧
    (resolve_dns_async ⟨none, fun a => if a == 0 then FallbackOut.gaiError
        else FallbackOut.ok "5.6.7.8"⟩
      (emptyCache (Option String)) 0 "nxd.example").attempts = 2 ∧
    (resolve_dns_async ⟨none, fun a => if a == 0 then FallbackOut.gaiError
        else FallbackOut.ok "5.6.7.8"⟩
      (emptyCache (Option String)) 0 "nxd.example").delays = [1] :=
  ⟨by with_unfolding_all rfl, by with_unfolding_all rfl, by with_unfolding_all rfl⟩

/-- Claim C8 (amended): when the asynchronous resolver fails and every
fallback attempt fails with a caught class (gaierror or timeout alike —
the code does not distinguish authoritative failures from transient ones),
the resolver makes all MAX_RETRIES attempts with exponentially doubling
sleep delays, then caches a negative entry for the host and returns
none. -/
theorem c8_failure_caches_negative (env : DnsEnv)
    (c : LimitedCache (Option String)) (now : Nat) (host : String)
    (hck : c.containsKey host = false)
    (hip : reMatchIpv4 host = false)
    (hasync : env.asyncResult = none)
    (hfail : ∀ a, env.fallback a = FallbackOut.gaiError ∨
      env.fallback a = FallbackOut.timeoutError) :
    (resolve_dns_async env c now host).result = Except.ok none ∧
    lcLookup (resolve_dns_async env c now host).cache.entries host = some none ∧
    (resolve_dns_async env c now host).delays = [1, 2, 4, 8, 16, 32, 64] ∧
    (resolve_dns_async env c now host).attempts = MAX_RETRIES := by
  have h1 : resolve_dns_async env c now host =
      ⟨Except.ok none, c.setitem now host none, [1, 2, 4, 8, 16, 32, 64], 8⟩ := by
    simp only [resolve_dns_async, hck, hip, hasync, Bool.false_eq_true, if_false,
      fallbackLoop_allFail hfail]
  rw [h1]
  exact ⟨rfl, lcLookup_setitem_self c now host none, rfl, rfl⟩

/-- Claim C8 witness: the amended statement applied to a host whose every
attempt raises gaierror. -/
theorem c8_failure_caches_negative_witness :
    (resolve_dns_async ⟨none, fun _ => FallbackOut.gaiError⟩
      (emptyCache (Option String)) 0 "nxd.example").result = Except.ok none ∧
    lcLookup ((resolve_dns_async ⟨none, fun _ => FallbackOut.gaiError⟩
      (emptyCache (Option String)) 0 "nxd.example").cache).entries "nxd.example" =
      some none ∧
    (resolve_dns_async ⟨none, fun _ => FallbackOut.gaiError⟩
      (emptyCache (Option String)) 0 "nxd.example").delays =
      [1, 2, 4, 8, 16, 32, 64] ∧
    (resolve_dns_async ⟨none, fun _ => FallbackOut.gaiError⟩
      (emptyCache (Option String)) 0 "nxd.example").attempts = MAX_RETRIES :=
  c8_failure_caches_negative ⟨none, fun _ => FallbackOut.gaiError⟩
    (emptyCache (Option String)) 0 "nxd.example" (by with_unfolding_all rfl)
    (by with_unfolding_all rfl) rfl (fun _ => Or.inl rfl)

/-- Claim C10 (confirmed): when a database record carries no country name
(absent or empty, the falsy cases) but does carry a registered-country
name, the geolocator returns and caches the registered-country name. -/
theorem c10_registered_country_fallback (env : GeoEnv)
    (c : LimitedCache (Option String)) (now : Nat) (ip : String)
    (rec : GeoRecord) (name : String)
    (hdb : env.dbLoaded = true)
    (hck : c.containsKey ip = false)
    (hpriv : isPrivateIpMatch ip = false)
    (hfound : env.db ip = DbOut.found rec)
    (hcf : pyFalsy rec.countryEn = true)
    (hreg : rec.registeredEn = some name) :
    (geolocate_ip_async env c now ip).result = Except.ok (some name) ∧
    (geolocate_ip_async env c now ip).dbConsulted = true ∧
    lcLookup (geolocate_ip_async env c now ip).cache.entries ip =
      some (some name) := by
  have h1 : geolocate_ip_async env c now ip =
      ⟨Except.ok (some name), c.setitem now ip (some name), true⟩ := by
    simp only [geolocate_ip_async, hdb, hck, hpriv, hfound, hcf, hreg,
      Bool.not_true, Bool.false_eq_true, if_false, if_true]
  rw [h1]
  exact ⟨rfl, rfl, lcLookup_setitem_self c now ip (some name)⟩

/-- Claim C10 witness: a record with no country name and a registered
country named Germany yields Germany. -/
theorem c10_registered_country_fallback_witness :
    (geolocate_ip_async ⟨true, fun _ => DbOut.found ⟨none, some "Germany"⟩⟩
      (emptyCache (Option String)) 0 "203.0.113.5").result =
      Except.ok (some "Germany") ∧
    (geolocate_ip_async ⟨true, fun _ => DbOut.found ⟨none, some "Germany"⟩⟩
      (emptyCache (Option String)) 0 "203.0.113.5").dbConsulted = true ∧
    lcLookup ((geolocate_ip_async ⟨true, fun _ => DbOut.found ⟨none, some "Germany"⟩⟩
      (emptyCache (Option String)) 0 "203.0.113.5").cache).entries "203.0.113.5" =
      some (some "Germany") :=
  c10_registered_country_fallback ⟨true, fun _ => DbOut.found ⟨none, some "Germany"⟩⟩
    (emptyCache (Option String)) 0 "203.0.113.5" ⟨none, some "Germany"⟩ "Germany"
    rfl (by with_unfolding_all rfl) (by with_unfolding_all rfl) rfl rfl rfl

/-- Claim C9 counterexample: for a batch with the single unique host
h.example, a per-host wait timeout makes the results loop increment
total_processed, and the underlying process_host task — which the timeout
does not cancel — later completes and increments again, so the counter
reaches 2 although totalCount is 1: the counter overshoots totalCount when
a per-host timeout fires. -/
theorem c9_counterexample :
    total_processed [HostEv.loopTimeout, HostEv.taskDone "h.example" false] = 2 ∧
    (["h.example"] : List String).length = 1 :=
  ⟨by decide, by decide⟩

/-- Claim C9 (amended): the stage-two counter is monotonically
non-decreasing along the event trace; on a run where every event is a
completed task (no timeout, no loop error, no cancellation skip) each host
group contributes exactly one increment and the counter equals the number
of events; and the stage-one counter reaches the batch length on an
uncancelled pass.  A per-host wait timeout, however, adds an extra
increment on top of the one made by the still-running task, so the counter
can exceed totalCount (see the counterexample). -/
theorem c9_counter_properties :
    (∀ (tr : List HostEv) (k : Nat),
      total_processed (tr.take k) ≤ total_processed (tr.take (k + 1))) ∧
    (∀ (tr : List HostEv), tr.all isTaskDone = true →
      total_processed tr = tr.length) ∧
    (∀ (l : List String), processedCount (fun _ => false) 0 l = l.length) :=
  ⟨total_processed_take_mono, total_processed_all_done,
   fun l => processedCount_false l 0⟩

/-- Claim C9 witness: the normal-completion clause of the amended statement
applied to a two-host trace of completed tasks. -/
theorem c9_counter_properties_witness :
    total_processed [HostEv.taskDone "a.example" false,
      HostEv.taskDone "b.example" true] = 2 := by
  have h := c9_counter_properties.2.1
    [HostEv.taskDone "a.example" false, HostEv.taskDone "b.example" true]
    (by decide)
  simpa using h

/-- Claim C4 counterexample: on the input consisting of an at sign, the
letter a and a colon, the general fallback of extract_host returns the
whole text matched by the at-host pattern — including the at sign and the
trailing colon — rather than the bare host a: the extractor can return a
token that is not the host itself and still carries delimiters, refuting
that part of the claim. -/
theorem c4_counterexample :
    extract_host stubLib "@a:" = some "@a:" ∧
    ("@a:".toList.contains '@') = true ∧
    ("@a:".toList.contains ':') = true :=
  ⟨by with_unfolding_all rfl, by decide, by decide⟩

/-- Claim C4 (amended): extraction is total (the embedding returns an
optional host for every input, mirroring the catch-all handler of the
source), and when a config matches no protocol branch and none of the five
general patterns, the extractor returns none rather than a partial token.
The VMess branch can, however, return an empty string and the general
fallback can return a delimiter-carrying token (see the counterexample). -/
theorem c4_no_branch_returns_none (lib : PyLib) (config : String)
    (h1 : config.startsWith "vmess://" = false)
    (h2 : config.startsWith "vless://" = false)
    (h3 : config.startsWith "trojan://" = false)
    (h4 : config.startsWith "ss://" = false)
    (h5 : config.startsWith "ssr://" = false)
    (h6 : (["socks5://", "http://", "https://", "hysteria://", "hysteria2://",
      "brook://"].any (fun p => config.startsWith p)) = false)
    (h7 : containsSubstr config "[Interface]" = false)
    (h8 : containsSubstr (asciiLower config) "openvpn" = false)
    (h9 : generalScan config = none) :
    extract_host lib config = none := by
  simp only [extract_host, h1, h2, h3, h4, h5, h6, h7, h8, h9, Bool.or_self,
    Bool.false_and, Bool.false_eq_true, if_false]

/-- Claim C4 witness: the amended statement applied to an input made of two
exclamation marks, which matches nothing. -/
theorem c4_no_branch_returns_none_witness :
    extract_host stubLib "!!" = none :=
  c4_no_branch_returns_none stubLib "!!" (by with_unfolding_all rfl)
    (by with_unfolding_all rfl) (by with_unfolding_all rfl)
    (by with_unfolding_all rfl) (by with_unfolding_all rfl)
    (by with_unfolding_all rfl) (by with_unfolding_all rfl)
    (by with_unfolding_all rfl) (by with_unfolding_all rfl)

/-- Claim C3 counterexample: one run in which the host h.example.com was
fully verified as Japan before the cancellation flag was set.  With the
flag set, the final collection loop breaks at its first iteration and the
run reports the Cancelled message with an empty match list, although the
identical run without cancellation returns the verified config: a
cancelled run does not return the matches accumulated up to the
cancellation point. -/
theorem c3_counterexample :
    strict_search stubLib true "japan" ["jp"] [] [] (fun _ => false)
      (fun h => if h == "h.example.com" then some "Japan" else none)
      (fun _ => true) true ["ss://u@h.example.com:443 japan"] =
      StrictOutcome.finished [] true ∧
    strict_search stubLib true "japan" ["jp"] [] [] (fun _ => false)
      (fun h => if h == "h.example.com" then some "Japan" else none)
      (fun _ => false) false ["ss://u@h.example.com:443 japan"] =
      StrictOutcome.finished ["ss://u@h.example.com:443 japan"] false :=
  ⟨by with_unfolding_all rfl, by with_unfolding_all rfl⟩

/-- Claim C3 (amended): a run whose cancellation flag is set when the final
collection runs does terminate in the cancelled report, but the collection
loop also observes the still-set flag and breaks immediately, so the
reported match list is empty regardless of which host groups had already
been verified. -/
theorem c3_cancelled_run_returns_empty (lib : PyLib) (target : String)
    (codes addKeywords addPatterns : List String) (stop1 : Nat → Bool)
    (hostCountry : String → Option String) (configs : List String)
    (found : List String) (r : Bool)
    (hrun : strict_search lib true target codes addKeywords addPatterns stop1
      hostCountry (fun _ => true) true configs =
      StrictOutcome.finished found r) :
    found = [] ∧ r = true := by
  simp only [strict_search, collectValid, collectValidGo_true, Bool.not_true,
    Bool.false_eq_true, if_false] at hrun
  split at hrun
  · exact absurd hrun (by simp)
  · split at hrun
    · exact absurd hrun (by simp)
    · split at hrun
      · exact absurd hrun (by simp)
      · simp only [StrictOutcome.finished.injEq] at hrun
        exact ⟨hrun.1.symm, hrun.2.symm⟩

/-- Claim C3 witness: the amended statement applied to the concrete
cancelled run of the counterexample setting. -/
theorem c3_cancelled_run_returns_empty_witness :
    ([] : List String) = [] ∧ true = true :=
  c3_cancelled_run_returns_empty stubLib "japan" ["jp"] [] [] (fun _ => false)
    (fun h => if h == "h.example.com" then some "Japan" else none)
    ["ss://u@h.example.com:443 japan"] [] true (by with_unfolding_all rfl)

/-- Claim C2 (confirmed): every config in the final match set of a
finished strict-search run passed the lexical pre-filter — the funnel is a
strict narrowing, because the final collection only draws from the host
groups, the host groups only hold stage-one survivors, and stage one only
keeps configs accepted by is_config_relevant. -/
theorem c2_final_subset_lexical (lib : PyLib) (dbLoaded : Bool)
    (target : String) (codes addKeywords addPatterns : List String)
    (stop1 : Nat → Bool) (hostCountry : String → Option String)
    (stopC : Nat → Bool) (stopReport : Bool) (configs : List String)
    (found : List String) (r : Bool) (c : String)
    (hrun : strict_search lib dbLoaded target codes addKeywords addPatterns
      stop1 hostCountry stopC stopReport configs =
      StrictOutcome.finished found r)
    (hc : c ∈ found) :
    is_config_relevant c target codes addKeywords addPatterns = true := by
  simp only [strict_search] at hrun
  split at hrun
  · exact absurd hrun (by simp)
  · split at hrun
    · exact absurd hrun (by simp)
    · split at hrun
      · exact absurd hrun (by simp)
      · split at hrun
        · exact absurd hrun (by simp)
        · simp only [StrictOutcome.finished.injEq] at hrun
          rw [← hrun.1] at hc
          rcases mem_collectValidGo hc with ⟨p, hp, hcp, _⟩
          rcases mem_groupByHostGo hp hcp with ⟨q, hq, _⟩ | ⟨hmem, _⟩
          · exact absurd hq (List.not_mem_nil _)
          · exact (mem_prelimFilterGo hmem).1

/-- Claim C2 witness: the theorem applied to a concrete finished run and a
member of its match set. -/
theorem c2_final_subset_lexical_witness :
    is_config_relevant "ss://u@h.example.com:443 japan" "japan" ["jp"] [] [] =
      true :=
  c2_final_subset_lexical stubLib true "japan" ["jp"] [] [] (fun _ => false)
    (fun h => if h == "h.example.com" then some "Japan" else none)
    (fun _ => false) false ["ss://u@h.example.com:443 japan"]
    ["ss://u@h.example.com:443 japan"] false "ss://u@h.example.com:443 japan"
    (by with_unfolding_all rfl) (by decide)

/-- Claim C6 counterexample: two Shadowsocks configs whose extracted hosts
are equal up to case but differ in it.  The ss branch of extract_host does
no case normalization, so the two configs land in two distinct host groups
— hence two process_host tasks, two resolutions and two geolocations — for
one case-insensitively-equal host, refuting the claim. -/
theorem c6_counterexample :
    extract_host stubLib "ss://u@Host.example.com:443 japan" =
      some "Host.example.com" ∧
    extract_host stubLib "ss://u@host.example.com:443 japan" =
      some "host.example.com" ∧
    asciiLower "Host.example.com" = asciiLower "host.example.com" ∧
    groupByHost (fun c => extract_host stubLib c)
      ["ss://u@Host.example.com:443 japan", "ss://u@host.example.com:443 japan"] =
      ([("Host.example.com", ["ss://u@Host.example.com:443 japan"]),
        ("host.example.com", ["ss://u@host.example.com:443 japan"])], 0) :=
  ⟨by with_unfolding_all rfl, by with_unfolding_all rfl,
   by with_unfolding_all rfl, by with_unfolding_all rfl⟩

/-- Claim C6 (amended): grouping is keyed by the exact (case-sensitive)
extracted host string.  Any two configs of the batch with the same
extracted truthy host string are placed in the one group under that key,
and the group keys are pairwise distinct, so exactly one process_host task
— one resolution and one geolocation — is issued per group, and the single
per-group verdict reaches every member.  Hosts differing only in case form
distinct groups (see the counterexample). -/
theorem c6_exact_host_grouping (e : String → Option String) (l : List String)
    (c1 c2 h : String)
    (h1 : e c1 = some h) (h2 : e c2 = some h) (hne : h.isEmpty = false)
    (hm1 : c1 ∈ l) (hm2 : c2 ∈ l) :
    (∃ cs, lcLookup (groupByHost e l).1 h = some cs ∧ c1 ∈ cs ∧ c2 ∈ cs) ∧
    ((groupByHost e l).1.map Prod.fst).Nodup := by
  rcases groupByHostGo_mem h1 hne l ([], 0) hm1 with ⟨cs1, hl1, hc1⟩
  rcases groupByHostGo_mem h2 hne l ([], 0) hm2 with ⟨cs2, hl2, hc2⟩
  have hcs : cs1 = cs2 := by
    have := hl1.symm.trans hl2
    exact Option.some.inj this
  exact ⟨⟨cs1, hl1, hc1, hcs ▸ hc2⟩, nodup_keys_groupByHost⟩

/-- Claim C6 witness: two configs sharing the byte-identical host
h.example.com share one group, with pairwise-distinct group keys. -/
theorem c6_exact_host_grouping_witness :
    (∃ cs, lcLookup (groupByHost (fun c => extract_host stubLib c)
      ["ss://u@h.example.com:443 japan", "ss://p@h.example.com:80 japan"]).1
      "h.example.com" = some cs ∧
      "ss://u@h.example.com:443 japan" ∈ cs ∧
      "ss://p@h.example.com:80 japan" ∈ cs) ∧
    ((groupByHost (fun c => extract_host stubLib c)
      ["ss://u@h.example.com:443 japan", "ss://p@h.example.com:80 japan"]).1.map
      Prod.fst).Nodup :=
  c6_exact_host_grouping (fun c => extract_host stubLib c)
    ["ss://u@h.example.com:443 japan", "ss://p@h.example.com:80 japan"]
    "ss://u@h.example.com:443 japan" "ss://p@h.example.com:80 japan"
    "h.example.com" (by with_unfolding_all rfl) (by with_unfolding_all rfl)
    (by with_unfolding_all rfl) (by decide) (by decide)

/-- Claim C1 counterexample: a batch of two lexical survivors for the
target japan, one with a verified Japanese host and one host-less (its
endpoint extraction returns none).  The finished match set holds only the
hosted config: the host-less lexical survivor is silently dropped (it is
merely counted in configs_without_host), refuting the claim that the final
set includes every host-less config that passed the lexical filter. -/
theorem c1_counterexample :
    strict_search stubLib true "japan" ["jp"] [] [] (fun _ => false)
      (fun h => if h == "h.example.com" then some "Japan" else none)
      (fun _ => false) false ["japan", "ss://u@h.example.com:443 japan"] =
      StrictOutcome.finished ["ss://u@h.example.com:443 japan"] false ∧
    is_config_relevant "japan" "japan" ["jp"] [] [] = true ∧
    extract_host stubLib "japan" = none ∧
    ("japan" ∈ (["ss://u@h.example.com:443 japan"] : List String) → False) :=
  ⟨by with_unfolding_all rfl, by decide, by with_unfolding_all rfl, by decide⟩

/-- Claim C1 (amended): for an uncancelled finished run, the final match
set is exactly the members of host groups whose verdict matches the target
country (case-insensitively); in particular every member of the match set
has a truthy extracted host, so host-less lexical survivors are never in
the final match set — they are only counted, not returned. -/
theorem c1_final_matches_characterization (lib : PyLib) (target : String)
    (codes addKeywords addPatterns : List String) (stop1 : Nat → Bool)
    (hostCountry : String → Option String) (configs found : List String)
    (r : Bool)
    (hrun : strict_search lib true target codes addKeywords addPatterns stop1
      hostCountry (fun _ => false) false configs =
      StrictOutcome.finished found r) :
    (∀ c, c ∈ found ↔ ∃ p,
      p ∈ (groupByHost (fun cf => extract_host lib cf)
        (prelimFilter stop1
          (fun cf => is_config_relevant cf target codes addKeywords addPatterns)
          configs)).1 ∧
      c ∈ p.2 ∧ countryMatches (hostCountry p.1) target = true) ∧
    (∀ c, extract_host lib c = none → c ∉ found) := by
  simp only [strict_search, Bool.not_true, Bool.false_eq_true, if_false] at hrun
  split at hrun
  · exact absurd hrun (by simp)
  · split at hrun
    · exact absurd hrun (by simp)
    · split at hrun
      · exact absurd hrun (by simp)
      · simp only [StrictOutcome.finished.injEq] at hrun
        have hchar : ∀ c, c ∈ found ↔ ∃ p,
            p ∈ (groupByHost (fun cf => extract_host lib cf)
              (prelimFilter stop1
                (fun cf => is_config_relevant cf target codes addKeywords
                  addPatterns) configs)).1 ∧
            c ∈ p.2 ∧ countryMatches (hostCountry p.1) target = true := by
          intro c
          rw [← hrun.1]
          unfold collectValid
          rw [collectValidGo_false]
          exact mem_collectAll
        refine ⟨hchar, fun c hnone hmem => ?_⟩
        rcases (hchar c).1 hmem with ⟨p, hp, hcp, _⟩
        rcases mem_groupByHostGo hp hcp with ⟨q, hq, _⟩ | ⟨_, h', hext, _⟩
        · exact absurd hq (List.not_mem_nil _)
        · rw [hnone] at hext
          exact Option.noConfusion hext

/-- Claim C1 witness: the theorem applied to the concrete run of the
counterexample batch shows the host-less lexical survivor japan is not in
the returned match set. -/
theorem c1_final_matches_characterization_witness :
    ("japan" : String) ∉ (["ss://u@h.example.com:443 japan"] : List String) :=
  (c1_final_matches_characterization stubLib "japan" ["jp"] [] []
    (fun _ => false)
    (fun h => if h == "h.example.com" then some "Japan" else none)
    ["japan", "ss://u@h.example.com:443 japan"]
    ["ss://u@h.example.com:443 japan"] false
    (by with_unfolding_all rfl)).2 "japan" (by with_unfolding_all rfl)
